import Mathlib

/-!
Verification development for the interactive range-based re-aggregation and
filtering pipeline distilled from the IEX / OSM visualization notebooks.

Events are timestamped records carrying a category (stock symbol) and numeric
value columns (size, price); timestamps are integer nanoseconds.  Ranges on
the timestamp axis are taken half-open: an event is in range `(lo, hi)` when
`lo ≤ timestamp < hi`, the convention HoloViews uses for continuous-dimension
slicing (`spikes[low:high]`).  A missing bound (`none`) leaves that side
unbounded.

The only coordination logic present verbatim in the source notebooks is
`xrange_filter`; it is embedded below directly from the source.  The
EventStore query, the Aggregator and the ViewCoordinator state machine are
realised in the notebooks through external library calls (holoviews
`.select`, `spikes_aggregate`, datashader `Canvas.points`, `RangeX` streams),
so those components are modelled from the spec, as flagged in their doc
comments.
-/

/-- One timestamped, categorized data point: `timestamp` in integer
nanoseconds, `symbol` the category label, and the numeric value columns
`size` and `price` (source: `hv.Spikes(df, ['timestamp'], ['symbol', 'size',
'price'])`). -/
structure Event where
  timestamp : Int
  symbol : String
  size : Int
  price : Int
deriving DecidableEq, Repr

/-- Half-open slice of a spikes collection by optional bounds, embedding the
HoloViews continuous-dimension slice `spikes[low:high]`: a `none` bound is
unbounded on that side, otherwise `low ≤ t` and `t < high`. -/
def sliceRange (low high : Option Int) (spikes : List Event) : List Event :=
  spikes.filter fun e =>
    (match low with
     | none => true
     | some l => decide (l ≤ e.timestamp)) &&
    (match high with
     | none => true
     | some h => decide (e.timestamp < h))

/-- Embedded from the source notebooks (IEX_stocks threshold 200, IEX_trading
threshold 600, kept as a parameter):

    def xrange_filter(spikes, x_range):
        low, high = (None, None) if x_range is None else x_range
        ranged = spikes[low:high]
        return (ranged if len(ranged) < 200 else ranged.iloc[:0]).opts(...)

The `.opts(spike_length=1, alpha=0)` display annotation (visible, zero
display-length, hoverable) does not affect the record data and is not
modelled. -/
def xrange_filter (threshold : Nat) (spikes : List Event)
    (x_range : Option (Option Int × Option Int)) : List Event :=
  let lh := match x_range with
            | none => (none, none)
            | some r => r
  let ranged := sliceRange lh.1 lh.2 spikes
  if ranged.length < threshold then ranged else []

/-- Timestamp membership for a `Range`: `none` is the unbounded sentinel
(full extent), `some (lo, hi)` is the half-open interval `lo ≤ t < hi`. -/
def tsInRange (range : Option (Int × Int)) (t : Int) : Bool :=
  match range with
  | none => true
  | some lh => decide (lh.1 ≤ t) && decide (t < lh.2)

/-- Modelled from the spec: `EventStore.query(range, categories)` (§4.1) is
not implemented under src/ — the notebooks delegate it to holoviews
`.select(symbol=...)` and range slicing.  Returns the events whose timestamp
is in `range` and whose category is in `cats`, preserving store order. -/
def query (store : List Event) (range : Option (Int × Int))
    (cats : List String) : List Event :=
  store.filter fun e => tsInRange range e.timestamp && cats.contains e.symbol

/-- The store invariant: events are ordered by ascending timestamp. -/
def SortedByTs (l : List Event) : Prop :=
  l.Pairwise fun a b => a.timestamp ≤ b.timestamp

instance : DecidablePred SortedByTs := fun l =>
  inferInstanceAs (Decidable (l.Pairwise _))

/-- Aggregation statistic: per-cell event count, or per-cell sum of a numeric
column; a missing value for an event (`none`) contributes zero. -/
inductive AggField where
  | count : AggField
  | sumCol : (Event → Option Int) → AggField

/-- Contribution of one event under a `AggField`. -/
def contrib : AggField → Event → Int
  | .count, _ => 1
  | .sumCol col, e => (col e).getD 0

/-- Linear bucketing of a timestamp into `[0, width)`: position of `t` within
`[lo, hi)` scaled to `width` cells, clamped to the last cell. -/
def bucketX (lo hi : Int) (width : Nat) (t : Int) : Nat :=
  min (width - 1) (((t - lo) * width / (hi - lo)).toNat)

/-- Whether event `e` lands in grid cell `(r, c)`: it must lie in the
half-open range, in the category band row `offset`, and bucket to column
`c`. -/
def hits (lo hi : Int) (width offset r c : Nat) (e : Event) : Bool :=
  decide (lo ≤ e.timestamp) && decide (e.timestamp < hi) &&
    (offset == r) && (bucketX lo hi width e.timestamp == c)

/-- Modelled from the spec: `Aggregator.aggregate(events, range, resolution,
field)` (§4.2) is not implemented under src/ — the notebooks delegate it to
`spikes_aggregate` / datashader `Canvas.points`.  Produces a fixed
`height × width` grid; every in-range event is bucketed linearly along the
ordinate into `[0, width)` and placed in the vertical band row `offset`
(each category occupies one unit-height band, cf. `spike_length=1` and the
integer `offset` argument of `visualize_symbol_raster`). -/
def aggregate (events : List Event) (lo hi : Int)
    (width height offset : Nat) (field : AggField) : List (List Int) :=
  (List.range height).map fun r =>
    (List.range width).map fun c =>
      ((events.filter (hits lo hi width offset r c)).map (contrib field)).sum

/-- Total mass of a grid: the sum over all cells. -/
def gridSum (g : List (List Int)) : Int :=
  (g.map List.sum).sum

/-- The aggregate statistic over the events in the half-open range
`[lo, hi)` — the right-hand side of the mass-conservation round trip. -/
def massOf (field : AggField) (lo hi : Int) (evs : List Event) : Int :=
  ((evs.filter fun e =>
      decide (lo ≤ e.timestamp) && decide (e.timestamp < hi)).map
    (contrib field)).sum

/-- Modelled from the spec: `DetailFilter.filter(events_in_range, threshold)`
(§4.3) — all of the in-range events when there are strictly fewer than
`threshold` of them, else the empty set (the thresholding half of the
source's `xrange_filter`). -/
def detail_filter (threshold : Nat) (evs : List Event) : List Event :=
  if evs.length < threshold then evs else []

/-- View configuration supplied externally (§6): grid resolution, detail
threshold, aggregation field, and the fixed full-extent bounds used when no
range is set (cf. the fixed `bounds` dict of the OSM notebook). -/
structure Config where
  fullExtent : Int × Int
  width : Nat
  height : Nat
  threshold : Nat
  field : AggField

/-- One renderable scene: a grid and a detail set per selected category. -/
structure Scene where
  grids : List (String × List (List Int))
  details : List (String × List Event)

/-- ViewCoordinator state: the current range (`none` = Idle / full extent,
`some` = Ranged), the active category selection, and the last published
scene. -/
structure Coord where
  range : Option (Int × Int)
  selection : List String
  scene : Scene

/-- Notifications arriving serially from the external UI source. -/
inductive Notify where
  | rangeChange (lo hi : Int)
  | selectionChange (sel : List String)
  | reset

/-- Error reported when a range notification has `low > high` (§7). -/
inductive CoordError where
  | invalidRange
deriving DecidableEq, Repr

/-- Modelled from the spec: the scene composition of `ViewCoordinator`
(§4.4) is not implemented under src/ — the notebooks realise it through
`visualize_symbol` / `overlay_symbols` wiring one shared `RangeX` stream
into both the rasterized layer and the hover filter.  For each category in
the selection (at its enumeration index as band offset, cf.
`overlay_symbols`), the store is queried once with the single current range
and both the grid and the detail set are derived from that same query
result. -/
def computeScene (store : List Event) (cfg : Config)
    (range : Option (Int × Int)) (selection : List String) : Scene :=
  let lh := range.getD cfg.fullExtent
  { grids := selection.enum.map fun oc =>
      (oc.2, aggregate (query store range [oc.2]) lh.1 lh.2
               cfg.width cfg.height oc.1 cfg.field)
    details := selection.map fun c =>
      (c, detail_filter cfg.threshold (query store range [c])) }

/-- Modelled from the spec: the `ViewCoordinator` state machine (§4.4, §7)
is not implemented under src/ — the notebooks realise range changes through
a holoviews `RangeX` stream and selection changes through a panel
`CrossSelector` callback.  A range change with `low > high` is rejected with
`invalidRange` before any query, leaving the state (and its published scene)
untouched; a valid range change recomputes the scene against the new range;
a selection change recomputes against the unchanged current range; a reset
returns to Idle (full extent). -/
def step (store : List Event) (cfg : Config) (st : Coord) (n : Notify) :
    Coord × Option CoordError :=
  match n with
  | .rangeChange lo hi =>
      if lo > hi then (st, some .invalidRange)
      else
        ({ range := some (lo, hi)
           selection := st.selection
           scene := computeScene store cfg (some (lo, hi)) st.selection },
         none)
  | .selectionChange sel =>
      ({ range := st.range
         selection := sel
         scene := computeScene store cfg st.range sel }, none)
  | .reset =>
      ({ range := none
         selection := st.selection
         scene := computeScene store cfg none st.selection }, none)

/-- A concrete run of `n` events of category A at consecutive timestamps,
used to exercise the threshold boundary. -/
def sampleEvents (n : Nat) : List Event :=
  (List.range n).map fun i => ⟨Int.ofNat i, "A", 1, 1⟩

/-- The concrete scenario of spec §8: events `(t=0, sym=A, size=10)`,
`(t=1, sym=A, size=5)`, `(t=2, sym=B, size=7)`. -/
def demoEvents : List Event :=
  [⟨0, "A", 10, 1⟩, ⟨1, "A", 5, 1⟩, ⟨2, "B", 7, 1⟩]

/-- An empty scene, used as the initial published scene of sample states. -/
def emptyScene : Scene :=
  { grids := [], details := [] }

/-- A concrete configuration: full extent `[0, 10)`, a `2 × 1` grid,
threshold 200, count aggregation. -/
def demoConfig : Config :=
  { fullExtent := (0, 10), width := 2, height := 1, threshold := 200
    field := .count }

/-- A concrete Ranged coordinator state. -/
def demoCoord : Coord :=
  { range := some (0, 1), selection := ["PINS", "CHK"], scene := emptyScene }

/-! ### Helper lemmas -/

lemma bucketX_lt (lo hi : Int) (w : Nat) (t : Int) (hw : 0 < w) :
    bucketX lo hi w t < w :=
  Nat.lt_of_le_of_lt (Nat.min_le_left _ _) (by omega)

lemma sum_map_add_distrib (l : List Nat) (f g : Nat → Int) :
    (l.map fun i => f i + g i).sum = (l.map f).sum + (l.map g).sum := by
  induction l with
  | nil => simp
  | cons x xs ih => simp only [List.map_cons, List.sum_cons, ih]; ring

lemma sum_map_indicator (n k : Nat) (v : Int) (hk : k < n) :
    ((List.range n).map fun i => if k = i then v else 0).sum = v := by
  induction n with
  | zero => omega
  | succ n ih =>
    rw [List.range_succ, List.map_append, List.sum_append]
    by_cases h : k < n
    · rw [ih h]
      have hne : k ≠ n := by omega
      simp [hne]
    · have hkn : k = n := by omega
      subst hkn
      have hz : ((List.range k).map fun i => if k = i then v else 0).sum = 0 := by
        apply List.sum_eq_zero
        intro x hx
        simp only [List.mem_map, List.mem_range] at hx
        obtain ⟨i, hi, rfl⟩ := hx
        have hne : k ≠ i := by omega
        simp [hne]
      rw [hz]
      simp

lemma massOf_cons (f : AggField) (lo hi : Int) (e : Event) (evs : List Event) :
    massOf f lo hi (e :: evs) =
      (if lo ≤ e.timestamp ∧ e.timestamp < hi then contrib f e else 0) +
        massOf f lo hi evs := by
  unfold massOf
  rw [List.filter_cons]
  by_cases h : lo ≤ e.timestamp ∧ e.timestamp < hi
  · simp [h.1, h.2]
  · have hb : (decide (lo ≤ e.timestamp) && decide (e.timestamp < hi)) = false := by
      simp only [Bool.and_eq_false_iff, decide_eq_false_iff_not]
      tauto
    simp [hb, h]

lemma gridSum_aggregate_cons (e : Event) (evs : List Event) (lo hi : Int)
    (w h off : Nat) (f : AggField) (hw : 0 < w) (hh : off < h) :
    gridSum (aggregate (e :: evs) lo hi w h off f) =
      (if lo ≤ e.timestamp ∧ e.timestamp < hi then contrib f e else 0) +
        gridSum (aggregate evs lo hi w h off f) := by
  have cell : ∀ r c,
      ((List.filter (hits lo hi w off r c) (e :: evs)).map (contrib f)).sum =
        (if lo ≤ e.timestamp ∧ e.timestamp < hi then
           (if off = r then
             (if bucketX lo hi w e.timestamp = c then contrib f e else 0)
            else 0)
         else 0) +
        ((List.filter (hits lo hi w off r c) evs).map (contrib f)).sum := by
    intro r c
    rw [List.filter_cons]
    by_cases h1 : lo ≤ e.timestamp ∧ e.timestamp < hi
    · by_cases h2 : off = r
      · by_cases h3 : bucketX lo hi w e.timestamp = c
        · have hp : hits lo hi w off r c e = true := by
            simp [hits, h1.1, h1.2, h2, h3]
          simp only [hp]
          simp [h1, h2, h3]
        · have hp : hits lo hi w off r c e = false := by
            simp [hits, h3]
          simp only [hp]
          simp [h1, h2, h3]
      · have hp : hits lo hi w off r c e = false := by
          simp [hits, h2]
        simp only [hp]
        simp [h1, h2]
    · have hp : hits lo hi w off r c e = false := by
        simp only [hits, Bool.and_eq_false_iff, decide_eq_false_iff_not]
        tauto
      simp only [hp]
      simp [h1]
  have rows : ∀ r,
      ((List.range w).map fun c =>
        ((List.filter (hits lo hi w off r c) (e :: evs)).map (contrib f)).sum).sum =
      (if lo ≤ e.timestamp ∧ e.timestamp < hi then
         (if off = r then contrib f e else 0) else 0) +
      ((List.range w).map fun c =>
        ((List.filter (hits lo hi w off r c) evs).map (contrib f)).sum).sum := by
    intro r
    simp only [cell]
    rw [sum_map_add_distrib]
    congr 1
    by_cases h1 : lo ≤ e.timestamp ∧ e.timestamp < hi
    · simp only [if_pos h1]
      by_cases h2 : off = r
      · simp only [if_pos h2]
        exact sum_map_indicator w (bucketX lo hi w e.timestamp) (contrib f e)
          (bucketX_lt lo hi w e.timestamp hw)
      · simp [h2]
    · simp [h1]
  unfold aggregate gridSum
  rw [List.map_map, List.map_map]
  simp only [Function.comp_def]
  simp only [rows]
  rw [sum_map_add_distrib]
  congr 1
  by_cases h1 : lo ≤ e.timestamp ∧ e.timestamp < hi
  · simp only [if_pos h1]
    exact sum_map_indicator h off (contrib f e) hh
  · simp [h1]

lemma gridSum_aggregate_nil (lo hi : Int) (w h off : Nat) (f : AggField) :
    gridSum (aggregate [] lo hi w h off f) = 0 := by
  unfold aggregate gridSum
  rw [List.map_map]
  apply List.sum_eq_zero
  intro x hx
  simp only [List.mem_map, List.mem_range, Function.comp_def] at hx
  obtain ⟨r, hr, rfl⟩ := hx
  apply List.sum_eq_zero
  intro y hy
  simp only [List.mem_map, List.mem_range] at hy
  obtain ⟨c, hc, rfl⟩ := hy
  simp

lemma gridSum_aggregate (evs : List Event) (lo hi : Int) (w h off : Nat)
    (f : AggField) (hw : 0 < w) (hh : off < h) :
    gridSum (aggregate evs lo hi w h off f) = massOf f lo hi evs := by
  induction evs with
  | nil => rw [gridSum_aggregate_nil]; simp [massOf]
  | cons e es ih =>
    rw [gridSum_aggregate_cons e es lo hi w h off f hw hh, ih, massOf_cons]

/-! ### Claim theorems -/

/-- Claim C1: the detail filter is all-or-nothing — for any events and
explicit optional bounds, when the count of events in the current range is
strictly below the threshold, `xrange_filter` returns all of them, and when
it is at or above the threshold it returns the empty set; it never truncates
to a partial subset. -/
theorem xrange_filter_all_or_nothing (T : Nat) (spikes : List Event)
    (lo hi : Option Int) :
    ((sliceRange lo hi spikes).length < T →
       xrange_filter T spikes (some (lo, hi)) = sliceRange lo hi spikes) ∧
    (T ≤ (sliceRange lo hi spikes).length →
       xrange_filter T spikes (some (lo, hi)) = []) := by
  constructor
  · intro hlt
    show (if (sliceRange lo hi spikes).length < T
          then sliceRange lo hi spikes else []) = _
    rw [if_pos hlt]
  · intro hge
    show (if (sliceRange lo hi spikes).length < T
          then sliceRange lo hi spikes else []) = _
    rw [if_neg (by omega)]

set_option maxRecDepth 40000 in
/-- Witness for C1 at the spec's threshold boundary: with threshold 200 and
an unbounded range, 199 matching events are returned in full and 200
matching events yield the empty set. -/
theorem xrange_filter_all_or_nothing_witness :
    ((sliceRange none none (sampleEvents 199)).length < 200 ∧
       xrange_filter 200 (sampleEvents 199) (some (none, none)) =
         sliceRange none none (sampleEvents 199)) ∧
    (200 ≤ (sliceRange none none (sampleEvents 200)).length ∧
       xrange_filter 200 (sampleEvents 200) (some (none, none)) = []) :=
  ⟨⟨by decide,
    (xrange_filter_all_or_nothing 200 (sampleEvents 199) none none).1
      (by decide)⟩,
   ⟨by decide,
    (xrange_filter_all_or_nothing 200 (sampleEvents 200) none none).2
      (by decide)⟩⟩

/-- Claim C2: mass/sum conservation of aggregation — for every event list,
range and resolution, the sum over all grid cells equals the aggregate
statistic over the events whose timestamp lies in the range: the event
count under count aggregation, and the sum of the chosen value column
(missing values contributing zero) under sum aggregation; no in-range event
is dropped from the grid. -/
theorem aggregate_mass_conservation (evs : List Event) (lo hi : Int)
    (w h off : Nat) (f : AggField) (col : Event → Option Int)
    (hw : 0 < w) (hh : off < h) :
    gridSum (aggregate evs lo hi w h off f) = massOf f lo hi evs ∧
    gridSum (aggregate evs lo hi w h off .count) =
      ((evs.filter fun e =>
          decide (lo ≤ e.timestamp) && decide (e.timestamp < hi)).length :
        Int) ∧
    gridSum (aggregate evs lo hi w h off (.sumCol col)) =
      ((evs.filter fun e =>
          decide (lo ≤ e.timestamp) && decide (e.timestamp < hi)).map
        fun e => (col e).getD 0).sum := by
  have hcount : ∀ l : List Event,
      (l.map (contrib .count)).sum = (l.length : Int) := by
    intro l
    induction l with
    | nil => simp
    | cons x xs ih =>
      simp only [List.map_cons, List.sum_cons, List.length_cons, ih, contrib]
      push_cast
      ring
  refine ⟨gridSum_aggregate evs lo hi w h off f hw hh, ?_, ?_⟩
  · rw [gridSum_aggregate evs lo hi w h off .count hw hh]
    unfold massOf
    exact hcount _
  · rw [gridSum_aggregate evs lo hi w h off (.sumCol col) hw hh]
    rfl

/-- Witness for C2 on the spec §8 scenario (three events, range `[0, 3)`,
a `2 × 1` grid): the grid mass equals the in-range statistic for both count
and size-sum aggregation. -/
theorem aggregate_mass_conservation_witness :
    (0 < 2 ∧ 0 < 1) ∧
    gridSum (aggregate demoEvents 0 3 2 1 0 .count) =
      ((demoEvents.filter fun e =>
          decide ((0:Int) ≤ e.timestamp) && decide (e.timestamp < 3)).length :
        Int) ∧
    gridSum (aggregate demoEvents 0 3 2 1 0
        (.sumCol fun e => some e.size)) =
      ((demoEvents.filter fun e =>
          decide ((0:Int) ≤ e.timestamp) && decide (e.timestamp < 3)).map
        fun e => ((some e.size).getD 0)).sum :=
  ⟨⟨by decide, by decide⟩,
   (aggregate_mass_conservation demoEvents 0 3 2 1 0 .count
      (fun e => some e.size) (by decide) (by decide)).2.1,
   (aggregate_mass_conservation demoEvents 0 3 2 1 0 .count
      (fun e => some e.size) (by decide) (by decide)).2.2⟩

/-- Claim C6: the grid is resolution-bounded — for every configuration the
grid returned by `aggregate` has exactly `height` rows of exactly `width`
cells, regardless of the number of events in the visible range. -/
theorem aggregate_resolution_bounded (evs : List Event) (lo hi : Int)
    (w h off : Nat) (f : AggField) :
    (aggregate evs lo hi w h off f).length = h ∧
    ∀ row ∈ aggregate evs lo hi w h off f, row.length = w := by
  constructor
  · simp [aggregate]
  · intro row hrow
    simp only [aggregate, List.mem_map] at hrow
    obtain ⟨r, hr, rfl⟩ := hrow
    simp

/-- Claim C10: totality of the detail filter on absent or half-open range
inputs — a `none` x-range is treated as unbounded on both ends and the
threshold rule is still applied to the full dataset, and a range with only
one endpoint present bounds only that side; the filter is a total function
on all of these inputs. -/
theorem xrange_filter_total_on_optional_bounds (T : Nat)
    (spikes : List Event) :
    xrange_filter T spikes none = xrange_filter T spikes (some (none, none)) ∧
    sliceRange none none spikes = spikes ∧
    xrange_filter T spikes none = (if spikes.length < T then spikes else []) ∧
    (∀ l : Int, sliceRange (some l) none spikes =
        spikes.filter fun e => decide (l ≤ e.timestamp)) ∧
    (∀ h : Int, sliceRange none (some h) spikes =
        spikes.filter fun e => decide (e.timestamp < h)) := by
  have hslice : sliceRange none none spikes = spikes := by
    simp [sliceRange]
  refine ⟨rfl, hslice, ?_, ?_, ?_⟩
  · show (if (sliceRange none none spikes).length < T
          then sliceRange none none spikes else []) = _
    rw [hslice]
  · intro l
    simp [sliceRange]
  · intro h
    simp [sliceRange]

/-- Claim C7: determinism of the pipeline — two calls of `aggregate`, of
`xrange_filter`, and of `detail_filter` on identical argument tuples return
identical results; the embedding is a pure function of its inputs, with no
hidden state, randomness or call-order dependence. -/
theorem pipeline_deterministic (evs1 evs2 : List Event) (r1 r2 : Int × Int)
    (res1 res2 : Nat × Nat) (off1 off2 : Nat) (f1 f2 : AggField)
    (T1 T2 : Nat) (x1 x2 : Option (Option Int × Option Int))
    (he : evs1 = evs2) (hr : r1 = r2) (hres : res1 = res2)
    (ho : off1 = off2) (hf : f1 = f2) (hT : T1 = T2) (hx : x1 = x2) :
    aggregate evs1 r1.1 r1.2 res1.1 res1.2 off1 f1 =
      aggregate evs2 r2.1 r2.2 res2.1 res2.2 off2 f2 ∧
    xrange_filter T1 evs1 x1 = xrange_filter T2 evs2 x2 ∧
    detail_filter T1 evs1 = detail_filter T2 evs2 := by
  subst he hr hres ho hf hT hx
  exact ⟨rfl, rfl, rfl⟩

/-- Witness for C7 at a concrete argument tuple. -/
theorem pipeline_deterministic_witness :
    demoEvents = demoEvents ∧
    aggregate demoEvents 0 3 2 1 0 .count =
      aggregate demoEvents 0 3 2 1 0 .count ∧
    xrange_filter 200 demoEvents none = xrange_filter 200 demoEvents none ∧
    detail_filter 200 demoEvents = detail_filter 200 demoEvents := by
  have A := pipeline_deterministic demoEvents demoEvents (0, 3) (0, 3)
    (2, 1) (2, 1) 0 0 .count .count 200 200 none none
    rfl rfl rfl rfl rfl rfl rfl
  exact ⟨rfl, A.1, A.2.1, A.2.2⟩

/-- Claim C4: `query` returns exactly the events whose timestamp lies in
the range and whose category is in the given set, in ascending timestamp
order (given the store's ordering invariant), and the unbounded sentinel
returns all events of those categories. -/
theorem query_correct (store : List Event) (range : Option (Int × Int))
    (cats : List String) (hs : SortedByTs store) :
    (∀ e, e ∈ query store range cats ↔
        e ∈ store ∧ tsInRange range e.timestamp = true ∧ e.symbol ∈ cats) ∧
    SortedByTs (query store range cats) ∧
    query store none cats = store.filter fun e => cats.contains e.symbol := by
  refine ⟨?_, ?_, ?_⟩
  · intro e
    simp [query, List.mem_filter, and_assoc]
  · exact List.Pairwise.sublist (List.filter_sublist _) hs
  · simp [query, tsInRange]

/-- Witness for C4 on the concrete sorted store of the spec §8 scenario. -/
theorem query_correct_witness :
    SortedByTs demoEvents ∧
    ((∀ e, e ∈ query demoEvents (some (0, 2)) ["A"] ↔
        e ∈ demoEvents ∧ tsInRange (some (0, 2)) e.timestamp = true ∧
          e.symbol ∈ ["A"]) ∧
     SortedByTs (query demoEvents (some (0, 2)) ["A"]) ∧
     query demoEvents none ["A"] =
       demoEvents.filter fun e => ["A"].contains e.symbol) :=
  ⟨by decide, query_correct demoEvents (some (0, 2)) ["A"] (by decide)⟩

/-- Claim C8: category isolation — inserting an event of category `C`
anywhere into the store changes neither the query result, the grid, nor the
detail set computed for a distinct category `D`. -/
theorem category_isolation (l1 l2 : List Event) (e : Event)
    (range : Option (Int × Int)) (lo hi : Int) (w h off T : Nat)
    (f : AggField) (C D : String) (hC : e.symbol = C) (hne : C ≠ D) :
    query (l1 ++ e :: l2) range [D] = query (l1 ++ l2) range [D] ∧
    aggregate (query (l1 ++ e :: l2) range [D]) lo hi w h off f =
      aggregate (query (l1 ++ l2) range [D]) lo hi w h off f ∧
    detail_filter T (query (l1 ++ e :: l2) range [D]) =
      detail_filter T (query (l1 ++ l2) range [D]) := by
  have hcontains : ([D].contains e.symbol) = false := by
    rw [hC]
    simp [hne]
  have key : query (l1 ++ e :: l2) range [D] = query (l1 ++ l2) range [D] := by
    unfold query
    rw [List.filter_append, List.filter_append, List.filter_cons]
    rw [hcontains, Bool.and_false]
    simp
  exact ⟨key, by rw [key], by rw [key]⟩

/-- Witness for C8: inserting a CHK trade into the middle of the store does
not change the PINS view. -/
theorem category_isolation_witness :
    (Event.symbol ⟨1, "CHK", 3, 1⟩ = "CHK" ∧ "CHK" ≠ "PINS") ∧
    (query ([⟨0, "PINS", 1, 1⟩] ++ ⟨1, "CHK", 3, 1⟩ :: [⟨2, "PINS", 2, 1⟩])
        (some (0, 3)) ["PINS"] =
      query ([⟨0, "PINS", 1, 1⟩] ++ [⟨2, "PINS", 2, 1⟩])
        (some (0, 3)) ["PINS"] ∧
     aggregate (query ([⟨0, "PINS", 1, 1⟩] ++ ⟨1, "CHK", 3, 1⟩ ::
          [⟨2, "PINS", 2, 1⟩]) (some (0, 3)) ["PINS"]) 0 3 2 1 0 .count =
       aggregate (query ([⟨0, "PINS", 1, 1⟩] ++ [⟨2, "PINS", 2, 1⟩])
          (some (0, 3)) ["PINS"]) 0 3 2 1 0 .count ∧
     detail_filter 200 (query ([⟨0, "PINS", 1, 1⟩] ++ ⟨1, "CHK", 3, 1⟩ ::
          [⟨2, "PINS", 2, 1⟩]) (some (0, 3)) ["PINS"]) =
       detail_filter 200 (query ([⟨0, "PINS", 1, 1⟩] ++ [⟨2, "PINS", 2, 1⟩])
          (some (0, 3)) ["PINS"])) :=
  ⟨⟨rfl, by decide⟩,
   category_isolation [⟨0, "PINS", 1, 1⟩] [⟨2, "PINS", 2, 1⟩]
     ⟨1, "CHK", 3, 1⟩ (some (0, 3)) 0 3 2 1 0 200 .count "CHK" "PINS"
     rfl (by decide)⟩

/-- Claim C3: on every valid range change while Ranged, the new published
scene's grids and detail sets are both recomputed against the one new range
through the same per-category query — no scene mixes two ranges. -/
theorem range_change_scene_consistent (store : List Event) (cfg : Config)
    (st : Coord) (r0 : Int × Int) (lo hi : Int)
    (hranged : st.range = some r0) (hvalid : lo ≤ hi) :
    ((step store cfg st (.rangeChange lo hi)).1.range = some (lo, hi)) ∧
    ((step store cfg st (.rangeChange lo hi)).1.scene.grids =
      st.selection.enum.map fun oc =>
        (oc.2, aggregate (query store (some (lo, hi)) [oc.2]) lo hi
                 cfg.width cfg.height oc.1 cfg.field)) ∧
    ((step store cfg st (.rangeChange lo hi)).1.scene.details =
      st.selection.map fun c =>
        (c, detail_filter cfg.threshold (query store (some (lo, hi)) [c]))) := by
  have hnot : ¬ lo > hi := by omega
  refine ⟨?_, ?_, ?_⟩ <;>
    simp [step, hnot, computeScene]

/-- Witness for C3: a concrete valid range change from a Ranged state. -/
theorem range_change_scene_consistent_witness :
    (demoCoord.range = some (0, 1) ∧ (2:Int) ≤ 5) ∧
    (((step demoEvents demoConfig demoCoord (.rangeChange 2 5)).1.range =
        some (2, 5)) ∧
     ((step demoEvents demoConfig demoCoord (.rangeChange 2 5)).1.scene.grids =
       demoCoord.selection.enum.map fun oc =>
         (oc.2, aggregate (query demoEvents (some (2, 5)) [oc.2]) 2 5
                  demoConfig.width demoConfig.height oc.1 demoConfig.field)) ∧
     ((step demoEvents demoConfig demoCoord
          (.rangeChange 2 5)).1.scene.details =
       demoCoord.selection.map fun c =>
         (c, detail_filter demoConfig.threshold
               (query demoEvents (some (2, 5)) [c])))) :=
  ⟨⟨rfl, by decide⟩,
   range_change_scene_consistent demoEvents demoConfig demoCoord (0, 1) 2 5
     rfl (by decide)⟩

/-- Claim C5: a range notification with `low > high` is rejected with
`invalidRange`, the coordinator state — including the previously published
scene — is retained unchanged, and the outcome does not depend on the event
store at all (no query is issued and no new scene is computed). -/
theorem invalid_range_rejected (store : List Event) (cfg : Config)
    (st : Coord) (lo hi : Int) (h : lo > hi) :
    step store cfg st (.rangeChange lo hi) = (st, some .invalidRange) ∧
    ∀ store2 : List Event,
      step store cfg st (.rangeChange lo hi) =
        step store2 cfg st (.rangeChange lo hi) := by
  constructor
  · simp [step, h]
  · intro store2
    simp [step, h]

/-- Witness for C5: the inverted range `(5, 2)` is rejected and the state
survives unchanged. -/
theorem invalid_range_rejected_witness :
    (5:Int) > 2 ∧
    (step demoEvents demoConfig demoCoord (.rangeChange 5 2) =
        (demoCoord, some .invalidRange) ∧
     ∀ store2 : List Event,
       step demoEvents demoConfig demoCoord (.rangeChange 5 2) =
         step store2 demoConfig demoCoord (.rangeChange 5 2)) :=
  ⟨by decide,
   invalid_range_rejected demoEvents demoConfig demoCoord 5 2 (by decide)⟩

/-- Claim C9: a selection change leaves the current range unchanged, and the
newly selected categories' grids and detail sets are computed against that
existing range (resolved to the full extent only when no range is set) —
one shared range is reused across all per-category views. -/
theorem selection_change_preserves_range (store : List Event) (cfg : Config)
    (st : Coord) (sel : List String) :
    ((step store cfg st (.selectionChange sel)).1.range = st.range) ∧
    ((step store cfg st (.selectionChange sel)).1.selection = sel) ∧
    ((step store cfg st (.selectionChange sel)).1.scene.grids =
      sel.enum.map fun oc =>
        (oc.2, aggregate (query store st.range [oc.2])
                 (st.range.getD cfg.fullExtent).1
                 (st.range.getD cfg.fullExtent).2
                 cfg.width cfg.height oc.1 cfg.field)) ∧
    ((step store cfg st (.selectionChange sel)).1.scene.details =
      sel.map fun c =>
        (c, detail_filter cfg.threshold (query store st.range [c]))) := by
  refine ⟨rfl, rfl, ?_, ?_⟩ <;>
    simp [step, computeScene]
